import Mathlib

/-!
Shallow embedding of `parliament/core/models.py` (openparliamentNS):
the identity-resolution and cross-reference engine. Database tables are
embedded as lists of rows; Django ORM queries become list filters;
Python exceptions become an explicit error type threaded through results.
Exceptions do not roll back earlier writes, so stateful operations return
the final state alongside the result even on error.
-/

/-- The distinct exception classes / messages raised by the source. All of
`dataError`, `electionError`, `schemeError`, `idMismatch`, `sanityError` and
`nameConflict` are plain `Exception`s in Python, distinguished by message. -/
inductive PolError where
  | polDoesNotExist
  | polMultiple
  | infoDoesNotExist
  | infoMultiple
  | ridingDoesNotExist
  | ridingMultiple
  | partyDoesNotExist
  | partyMultiple
  | valueError
  | httpError
  | dataError
  | electionError
  | schemeError
  | idMismatch
  | sanityError
  | nameConflict
deriving DecidableEq, Repr

/-- A row of the `Politician` table (fields used by the engine). -/
structure PoliticianT where
  id : Nat
  name : String
  name_family : String
deriving DecidableEq, Repr

/-- A row of the `PoliticianInfo` key/value table. -/
structure InfoRow where
  politician : Nat
  schema : String
  value : String
deriving DecidableEq, Repr

/-- A row of the `InternalXref` table (text keys; `int_value` is unused by
the operations the claims exercise). -/
structure XrefRow where
  schema : String
  text_value : String
  target_id : Nat
deriving DecidableEq, Repr

/-- A row of the `ElectedMember` table, with its many-to-many `sessions`. -/
structure MemberT where
  politician : Nat
  riding : Nat
  party : Nat
  sessions : List String
deriving DecidableEq, Repr

/-- A row of the `Riding` table (fields used by the engine). -/
structure RidingT where
  id : Nat
  slug : String
deriving DecidableEq, Repr

/-- The persistent store. -/
structure DBState where
  politicians : List PoliticianT
  infos : List InfoRow
  xrefs : List XrefRow
  members : List MemberT
  ridings : List RidingT
deriving DecidableEq, Repr

/-- An HTTP response as consumed by `_get_pol_from_ourcommons_url`:
final URL after redirects, status, and the fields read out of the XML
detail document. -/
structure HttpResponse where
  status : Nat
  url : String
  firstName : String
  lastName : String
  constituency : String

/-- Python 2 `\s` / `str.strip()` whitespace. -/
def is_space_char (c : Char) : Bool :=
  c == ' ' || c == '\t' || c == '\n' || c == '\r' || c == '\x0b' || c == '\x0c'

/-- `str.strip()`. -/
def py_strip (s : String) : String :=
  String.mk (((s.data.dropWhile is_space_char).reverse.dropWhile is_space_char).reverse)

/-- Collapse runs of whitespace to a single space; a `true` flag swallows
leading whitespace. -/
def squeeze_spaces : List Char → Bool → List Char
  | [], _ => []
  | c :: rest, prevSpace =>
    if is_space_char c then
      if prevSpace then squeeze_spaces rest true else ' ' :: squeeze_spaces rest true
    else c :: squeeze_spaces rest false

/-- Modelled from the spec: `parsetools.normalizeName` is imported from
`parliament.core.parsetools`, which is not under `src/`. Per spec section 4.1
the normalizer is a deterministic, total function that lower-cases, strips
punctuation noise, and collapses whitespace. -/
def normalizeName (raw : String) : String :=
  let cs := raw.data.filterMap (fun c => if c == '.' then none else some c.toLower)
  String.mk (((squeeze_spaces cs true).reverse.dropWhile is_space_char).reverse)

/-- Collapse runs of `-` to a single dash; a `true` flag swallows leading dashes. -/
def squeeze_dashes : List Char → Bool → List Char
  | [], _ => []
  | c :: rest, prevDash =>
    if c == '-' then
      if prevDash then squeeze_dashes rest true else '-' :: squeeze_dashes rest true
    else c :: squeeze_dashes rest false

/-- Modelled from the spec: `parsetools.slugify` is imported from
`parliament.core.parsetools`, which is not under `src/`. Per spec section 4.3
it normalizes a district name to a slug: lower-case, alphanumerics kept, any
other character run (spaces, hyphens, em-dashes) becomes a single `-`,
trimmed at both ends. -/
def slugify (raw : String) : String :=
  let cs := (raw.data.map Char.toLower).map
    (fun c => if c.isLower || c.isDigit then c else '-')
  String.mk (((squeeze_dashes cs true).reverse.dropWhile (fun c => c == '-')).reverse)

/-- Python 2 `\w` (no `re.UNICODE`): ASCII letters, digits, underscore. -/
def is_word_char (c : Char) : Bool :=
  c.isAlpha || c.isDigit || c == '_'

/-- The Stage-3 family-name pattern `re.search(r'\s([A-Z][\w-]+)$', name.strip())`:
a match exists iff the maximal whitespace-free suffix of the stripped name is
preceded by whitespace and has the shape `[A-Z][\w-]+`; the group is that suffix. -/
def extract_lastname (nm : String) : Option String :=
  let t := (py_strip nm).data
  let suffix := (t.reverse.takeWhile (fun c => !is_space_char c)).reverse
  if suffix.length == t.length then none
  else match suffix with
    | [] => none
    | c :: rest =>
      if c.isUpper && !rest.isEmpty && rest.all (fun d => is_word_char d || d == '-')
      then some (String.mk suffix) else none

/-- `int(...)` on a digit string, as a fold over its characters. -/
def digits_to_nat (ds : List Char) : Nat :=
  ds.foldl (fun n c => n * 10 + (c.toNat - '0'.toNat)) 0

/-- The pattern `re.search(r'\((\d+)\)$', xml_url)`: a trailing parenthesized
number at the very end of the URL. -/
def url_trailing_id (u : String) : Option Nat :=
  match u.data.reverse with
  | ')' :: rest =>
    let ds := rest.takeWhile Char.isDigit
    if ds.isEmpty then none
    else match rest.drop ds.length with
      | '(' :: _ => some (digits_to_nat ds.reverse)
      | _ => none
  | _ => none

/-- `RidingManager.FIX_RIDING`, verbatim from the source. -/
def FIX_RIDING : List (String × String) := [
  ("richmond-arthabasca", "richmond-arthabaska"),
  ("richemond-arthabaska", "richmond-arthabaska"),
  ("battle-river", "westlock-st-paul"),
  ("vancouver-est", "vancouver-east"),
  ("calgary-ouest", "calgary-west"),
  ("kitchener-wilmot-wellesley-woolwich", "kitchener-conestoga"),
  ("carleton-orleans", "ottawa-orleans"),
  ("frazer-valley-west", "fraser-valley-west"),
  ("laval-ouest", "laval-west"),
  ("medecine-hat", "medicine-hat"),
  ("lac-st-jean", "lac-saint-jean"),
  ("vancouver-north", "north-vancouver"),
  ("laval-est", "laval-east"),
  ("ottawa-ouest-nepean", "ottawa-west-nepean"),
  ("cap-breton-highlands-canso", "cape-breton-highlands-canso"),
  ("winnipeg-centre-sud", "winnipeg-south-centre"),
  ("renfrew-nippissing-pembroke", "renfrew-nipissing-pembroke"),
  ("the-battleford-meadow-lake", "the-battlefords-meadow-lake"),
  ("esquimalt-de-fuca", "esquimalt-juan-de-fuca"),
  ("sint-hubert", "saint-hubert")]

namespace RidingManager

/-- `RidingManager.get_by_name`: slugify, consult the correction table,
then `.get(slug=...)` (zero rows raises `Riding.DoesNotExist`, several raise
`Riding.MultipleObjectsReturned`). -/
def get_by_name (s : DBState) (nm : String) : Except PolError Nat :=
  let slug0 := slugify nm
  let slug := match FIX_RIDING.lookup slug0 with
    | some corrected => corrected
    | none => slug0
  match s.ridings.filter (fun r => r.slug == slug) with
  | [r] => .ok r.id
  | [] => .error .ridingDoesNotExist
  | _ :: _ :: _ => .error .ridingMultiple

end RidingManager

/-- `InternalXref.objects.filter(schema='party_names', text_value=key)`. -/
def party_name_rows (s : DBState) (key : String) : List XrefRow :=
  s.xrefs.filter (fun r => r.schema == "party_names" && r.text_value == key)

namespace Party

/-- `Party.add_alternate_name`: normalize (`strip().lower()`), look up the
key among `party_names` xref rows; insert when absent, no-op when it points
to this party, raise when it points to a different one. -/
def add_alternate_name (s : DBState) (partyId : Nat) (nm : String) :
    Except PolError Unit × DBState :=
  let nm2 := (py_strip nm).toLower
  match party_name_rows s nm2 with
  | [] => (.ok (), { s with xrefs := s.xrefs ++ [⟨"party_names", nm2, partyId⟩] })
  | r :: _ => if r.target_id ≠ partyId then (.error .nameConflict, s) else (.ok (), s)

end Party

namespace PartyManager

/-- `PartyManager.get_by_name`: filter `party_names` xref rows on the
normalized key; zero raises `Party.DoesNotExist`, several raise, one returns
the target party. -/
def get_by_name (s : DBState) (nm : String) : Except PolError Nat :=
  match party_name_rows s ((py_strip nm).toLower) with
  | [] => .error .partyDoesNotExist
  | [r] => .ok r.target_id
  | _ :: _ :: _ => .error .partyMultiple

end PartyManager

namespace Politician

/-- `self.politicianinfo_set.filter(schema=key)` for one politician. -/
def infos_for (s : DBState) (polId : Nat) (key : String) : List InfoRow :=
  s.infos.filter (fun r => r.politician == polId && r.schema == key)

/-- `Politician.alternate_names`. -/
def alternate_names (s : DBState) (polId : Nat) : List String :=
  (infos_for s polId "alternate_name").map (fun r => r.value)

/-- `Politician.set_info_multivalued`: `get_or_create`. -/
def set_info_multivalued (s : DBState) (polId : Nat) (key value : String) : DBState :=
  if s.infos.any (fun r => r.politician == polId && r.schema == key && r.value == value)
  then s
  else { s with infos := s.infos ++ [⟨polId, key, value⟩] }

/-- `Politician.add_alternate_name`: compute `normalizeName(name)`, skip when
already among the stored alternates, otherwise add it multivalued. -/
def add_alternate_name (s : DBState) (polId : Nat) (nm : String) : DBState :=
  if (alternate_names s polId).contains (normalizeName nm) then s
  else set_info_multivalued s polId "alternate_name" (normalizeName nm)

/-- `Politician.set_info`: `.get(schema=key)` — zero rows create a fresh one;
one row raises `ValueError` unless `overwrite`, else updates in place; several
rows are all deleted and replaced by the new value (no error raised). -/
def set_info (s : DBState) (polId : Nat) (key value : String) (overwrite : Bool) :
    Except PolError Unit × DBState :=
  match infos_for s polId key with
  | [] => (.ok (), { s with infos := s.infos ++ [⟨polId, key, value⟩] })
  | [_] =>
    if !overwrite then (.error .valueError, s)
    else
      let updated := s.infos.map (fun r =>
        if r.politician == polId && r.schema == key then { r with value := value } else r)
      (.ok (), { s with infos := updated })
  | _ :: _ :: _ =>
    let purged := s.infos.filter (fun r => !(r.politician == polId && r.schema == key))
    (.ok (), { s with infos := purged ++ [⟨polId, key, value⟩] })

/-- `Politician.save`: persist the row, then `add_alternate_name(self.name)`. -/
def save (s : DBState) (p : PoliticianT) : DBState :=
  let base := if s.politicians.any (fun q => q.id == p.id)
    then { s with politicians := s.politicians.map (fun q => if q.id == p.id then p else q) }
    else { s with politicians := s.politicians ++ [p] }
  add_alternate_name base p.id p.name

end Politician

/-- The Stage-1 candidate rows:
`PoliticianInfo.sr_objects.filter(schema='alternate_name', value=normalizeName(name))`. -/
def alt_rows (s : DBState) (nm : String) : List InfoRow :=
  s.infos.filter (fun r => r.schema == "alternate_name" && r.value == normalizeName nm)

/-- The Stage-2 membership filter: members of one politician surviving every
supplied context filter (all conditions on the same `ElectedMember` row). -/
def surviving_members (s : DBState) (polId : Nat) (session : Option String)
    (riding : Option Nat) (party : Option Nat) : List MemberT :=
  s.members.filter (fun m => m.politician == polId
    && riding.all (fun r => m.riding == r)
    && session.all (fun x => m.sessions.contains x)
    && party.all (fun pa => m.party == pa))

/-- The Stage-2 loop over candidates: remember the first candidate with a
surviving member, raise `Politician.MultipleObjectsReturned` on a second. -/
def context_scan (s : DBState) (session : Option String) (riding : Option Nat)
    (party : Option Nat) : List InfoRow → Option Nat → Except PolError (Option Nat)
  | [], acc => .ok acc
  | r :: rest, acc =>
    match surviving_members s r.politician session riding party with
    | [] => context_scan s session riding party rest acc
    | m :: _ =>
      match acc with
      | some _ => .error .polMultiple
      | none => context_scan s session riding party rest (some m.politician)

/-- The Stage-3 queryset
`filter(name_family=lastname, electedmember__sessions=session).distinct()`
then, when a riding is supplied, a second `.filter(electedmember__riding=riding)`.
The two `.filter` calls are separate Django joins over the multivalued
`electedmember` relation, so the session membership and the riding membership
may be different rows. -/
def stage3_pols (s : DBState) (lastname sess : String) (riding : Option Nat) :
    List PoliticianT :=
  s.politicians.filter (fun p =>
    p.name_family == lastname
    && s.members.any (fun m => m.politician == p.id && m.sessions.contains sess)
    && riding.all (fun rid => s.members.any (fun m => m.politician == p.id && m.riding == rid)))

namespace PoliticianManager

/-- Stage 3 of `get_by_name` (lines 189-207): last-name matching, gated on a
session being supplied and `strictMatch` being off; ends in the final
`raise Politician.DoesNotExist` when it cannot return. -/
def stage3 (s : DBState) (nm : String) (session : Option String) (riding : Option Nat)
    (saveAlternate strictMatch : Bool) : Except PolError Nat × DBState :=
  match session, strictMatch with
  | some sess, false =>
    match extract_lastname nm with
    | none => (.error .polDoesNotExist, s)
    | some lastname =>
      match stage3_pols s lastname sess riding with
      | _ :: _ :: _ =>
        if riding.isSome then (.error .dataError, s) else (.error .polDoesNotExist, s)
      | [p] =>
        (.ok p.id, if saveAlternate then Politician.add_alternate_name s p.id nm else s)
      | [] => (.error .polDoesNotExist, s)
  | _, _ => (.error .polDoesNotExist, s)

/-- `PoliticianManager.get_by_name`. -/
def get_by_name (s : DBState) (nm : String) (session : Option String)
    (riding : Option Nat) (election : Option Nat) (party : Option Nat)
    (saveAlternate strictMatch : Bool) : Except PolError Nat × DBState :=
  match alt_rows s nm with
  | [] => stage3 s nm session riding saveAlternate strictMatch
  | p0 :: prest =>
    if session.isSome || riding.isSome || party.isSome then
      match context_scan s session riding party (p0 :: prest) none with
      | .error e => (.error e, s)
      | .ok (some result) => (.ok result, s)
      | .ok none => stage3 s nm session riding saveAlternate strictMatch
    else if election.isSome then (.error .electionError, s)
    else if prest.isEmpty then (.ok p0.politician, s)
    else (.error .polMultiple, s)

/-- `PoliticianManager.filter_by_name`. -/
def filter_by_name (s : DBState) (nm : String) : List Nat :=
  (alt_rows s nm).map (fun r => r.politician)

end PoliticianManager

/-- `POL_PERSON_ID_LOOKUP_URL % parlid`. -/
def pol_person_id_lookup_url (parlid : Nat) : String :=
  "https://www.ourcommons.ca/Members/en/openparliamentdotca-lookup(" ++ toString parlid ++ ")"

namespace PoliticianManager

/-- `PoliticianManager._get_pol_from_ourcommons_url`. Returns the resolved
politician id and the discovered numeric person id, the final state, and the
list of URLs requested (each `requests.get` appends one entry). -/
def get_pol_from_ourcommons_url (env : String → HttpResponse) (s : DBState)
    (url : String) (session : Option String) (riding_name : Option String) :
    Except PolError (Nat × Nat) × DBState × List String :=
  let initial := env url
  if 400 ≤ initial.status then (.error .polDoesNotExist, s, [url])
  else
    let xml_url := initial.url
    match url_trailing_id xml_url with
    | none =>
      if xml_url.endsWith "Members/en" then (.error .polDoesNotExist, s, [url])
      else (.error .schemeError, s, [url])
    | some parl_mp_id =>
      let xml_url2 := xml_url ++ "/xml"
      let xml_resp := env xml_url2
      if 400 ≤ xml_resp.status then (.error .httpError, s, [url, xml_url2])
      else
        let polname := xml_resp.firstName ++ " " ++ xml_resp.lastName
        match RidingManager.get_by_name s xml_resp.constituency with
        | .error .ridingDoesNotExist => (.error .polDoesNotExist, s, [url, xml_url2])
        | .error e => (.error e, s, [url, xml_url2])
        | .ok riding =>
          let check : Except PolError Unit :=
            match riding_name with
            | none => .ok ()
            | some rn =>
              match RidingManager.get_by_name s rn with
              | .error e => .error e
              | .ok r2 => if riding ≠ r2 then .error .sanityError else .ok ()
          match check with
          | .error e => (.error e, s, [url, xml_url2])
          | .ok _ =>
            match get_by_name s polname session (some riding) none none true false with
            | (.error e, s2) => (.error e, s2, [url, xml_url2])
            | (.ok pol, s2) => (.ok (pol, parl_mp_id), s2, [url, xml_url2])

/-- The fast-path queryset of `get_by_parl_mp_id`:
`PoliticianInfo.sr_objects.get(schema='parl_mp_id', value=unicode(parlid))`. -/
def mp_id_rows (s : DBState) (parlid : Nat) : List InfoRow :=
  s.infos.filter (fun r => r.schema == "parl_mp_id" && r.value == toString parlid)

/-- `PoliticianManager.get_by_parl_mp_id`. -/
def get_by_parl_mp_id (env : String → HttpResponse) (s : DBState) (parlid : Nat)
    (session : Option String) (riding_name : Option String) :
    Except PolError Nat × DBState × List String :=
  match mp_id_rows s parlid with
  | [r] => (.ok r.politician, s, [])
  | _ :: _ :: _ => (.error .infoMultiple, s, [])
  | [] =>
    match get_pol_from_ourcommons_url env s (pol_person_id_lookup_url parlid)
        session riding_name with
    | (.error e, s2, log) => (.error e, s2, log)
    | (.ok (pol, x_mp_id), s2, log) =>
      if parlid ≠ x_mp_id then (.error .idMismatch, s2, log)
      else
        match Politician.set_info s2 pol "parl_mp_id" (toString parlid) false with
        | (.error e, s3) => (.error e, s3, log)
        | (.ok _, s3) =>
          match s3.politicians.filter (fun q => q.id == pol) with
          | [q] => (.ok q.id, s3, log)
          | [] => (.error .polDoesNotExist, s3, log)
          | _ :: _ :: _ => (.error .polMultiple, s3, log)

end PoliticianManager

/-! ## Helper lemmas -/

lemma two_le_length_of_mem_ne {α : Type} {l : List α} {a b : α}
    (ha : a ∈ l) (hb : b ∈ l) (hne : a ≠ b) : 2 ≤ l.length := by
  induction l with
  | nil => cases ha
  | cons x t ih =>
    rcases List.mem_cons.mp ha with rfl | hat
    · rcases List.mem_cons.mp hb with rfl | hbt
      · exact absurd rfl hne
      · have h1 := List.length_pos_of_mem hbt
        simp only [List.length_cons]
        omega
    · rcases List.mem_cons.mp hb with rfl | hbt
      · have h1 := List.length_pos_of_mem hat
        simp only [List.length_cons]
        omega
      · have h1 := ih hat hbt
        simp only [List.length_cons]
        omega

lemma filter_not_filter {α : Type} (l : List α) (p : α → Bool) :
    (l.filter (fun r => !(p r))).filter p = [] := by
  induction l with
  | nil => rfl
  | cons a t ih =>
    by_cases hp : p a = true
    · simp [List.filter_cons, hp, ih]
    · simp only [Bool.not_eq_true] at hp
      simp [List.filter_cons, hp, ih]

/-! ## C3 — district correction table -/

/-- A store holding only the canonical district `richmond-arthabaska`. -/
def c3_state : DBState := ⟨[], [], [], [], [⟨1, "richmond-arthabaska"⟩]⟩

/-- C3 (counterexample): `resolveDistrict("Richmond-Arthabatca")` is claimed to
resolve to the same canonical district as `resolveDistrict("Richmond—Arthabaska")`,
but the slug `richmond-arthabatca` is not in the `FIX_RIDING` correction table
(the table holds `richmond-arthabasca` and `richemond-arthabaska`), so with the
canonical district present the first call succeeds and the second fails with
`Riding.DoesNotExist`. -/
theorem c3_counterexample :
    RidingManager.get_by_name c3_state "Richmond—Arthabaska" = .ok 1 ∧
    RidingManager.get_by_name c3_state "Richmond-Arthabatca" = .error .ridingDoesNotExist :=
  ⟨rfl, rfl⟩

/-- C3 (amended): `Riding.objects.get_by_name` applied to `"Richmond—Arthabaska"`
and applied to the known misspelling `"Richmond-Arthabasca"` (the entry actually
in the static correction table) return the same result in every store; in
particular, with the canonical district present, both resolve to it. -/
theorem c3_district_correction_amended :
    (∀ s : DBState, RidingManager.get_by_name s "Richmond—Arthabaska" =
      RidingManager.get_by_name s "Richmond-Arthabasca") ∧
    RidingManager.get_by_name c3_state "Richmond-Arthabasca" = .ok 1 :=
  ⟨fun _ => rfl, rfl⟩

/-! ## C10 — `set_info(overwrite=False)` with several prior rows -/

/-- C10: if a politician holds two or more info rows under the same schema,
`set_info(key, value, overwrite=False)` raises no error: it deletes every
existing row for that schema and replaces them with the single new value. -/
theorem c10_multirow_overwrite_no_error (s : DBState) (polId : Nat) (key value : String)
    (h : 2 ≤ (Politician.infos_for s polId key).length) :
    (Politician.set_info s polId key value false).1 = .ok () ∧
    Politician.infos_for (Politician.set_info s polId key value false).2 polId key =
      [⟨polId, key, value⟩] := by
  rcases hq : Politician.infos_for s polId key with _ | ⟨a, _ | ⟨b, l⟩⟩
  · rw [hq] at h; simp at h
  · rw [hq] at h; simp at h
  · simp only [Politician.set_info]
    rw [hq]
    refine ⟨rfl, ?_⟩
    simp only [Politician.infos_for, List.filter_append]
    rw [filter_not_filter]
    simp

/-- A politician with two `parl_mp_id` rows. -/
def c10_state : DBState :=
  ⟨[⟨1, "Jane Smith", "Smith"⟩],
   [⟨1, "parl_mp_id", "7"⟩, ⟨1, "parl_mp_id", "8"⟩], [], [], []⟩

theorem c10_witness :
    (Politician.set_info c10_state 1 "parl_mp_id" "9" false).1 = .ok () ∧
    Politician.infos_for (Politician.set_info c10_state 1 "parl_mp_id" "9" false).2
      1 "parl_mp_id" = [⟨1, "parl_mp_id", "9"⟩] :=
  c10_multirow_overwrite_no_error c10_state 1 "parl_mp_id" "9" (by decide)

/-! ## C8 — HTTP failure on the external-ID slow path -/

/-- C8: when the initial directory-profile request returns a non-success
status, `get_by_parl_mp_id` fails with `Politician.DoesNotExist`, leaves the
store unchanged, and performs exactly one request (no retry). -/
theorem c8_http_failure_no_write (env : String → HttpResponse) (s : DBState)
    (parlid : Nat) (session riding_name : Option String)
    (hslow : PoliticianManager.mp_id_rows s parlid = [])
    (hfail : 400 ≤ (env (pol_person_id_lookup_url parlid)).status) :
    PoliticianManager.get_by_parl_mp_id env s parlid session riding_name =
      (.error .polDoesNotExist, s, [pol_person_id_lookup_url parlid]) := by
  simp only [PoliticianManager.get_by_parl_mp_id]
  rw [hslow]
  simp only [PoliticianManager.get_pol_from_ourcommons_url]
  rw [if_pos hfail]

theorem c8_witness :
    PoliticianManager.get_by_parl_mp_id (fun _ => ⟨404, "", "", "", ""⟩)
      ⟨[], [], [], [], []⟩ 9999 none none =
      (.error .polDoesNotExist, ⟨[], [], [], [], []⟩, [pol_person_id_lookup_url 9999]) :=
  c8_http_failure_no_write _ _ _ _ _ rfl (by decide)

/-! ## C4 — xref insert: conflict detection and idempotence -/

/-- C4: starting from a store where the normalized key is unbound, inserting
`key → T1` succeeds and leaves exactly one row; a second insert of `key → T2`
with `T2 ≠ T1` fails with the conflict error and the store still reports only
`T1` for the key; re-inserting `key → T1` succeeds and leaves the store
unchanged (exactly one row, no duplicate). -/
theorem c4_insert_conflict_idempotent (s : DBState) (nm : String) (t1 t2 : Nat)
    (hne : t1 ≠ t2)
    (hempty : party_name_rows s ((py_strip nm).toLower) = []) :
    (Party.add_alternate_name s t1 nm).1 = .ok () ∧
    party_name_rows (Party.add_alternate_name s t1 nm).2 ((py_strip nm).toLower) =
      [⟨"party_names", (py_strip nm).toLower, t1⟩] ∧
    Party.add_alternate_name (Party.add_alternate_name s t1 nm).2 t2 nm =
      (.error .nameConflict, (Party.add_alternate_name s t1 nm).2) ∧
    PartyManager.get_by_name (Party.add_alternate_name s t1 nm).2 nm = .ok t1 ∧
    Party.add_alternate_name (Party.add_alternate_name s t1 nm).2 t1 nm =
      (.ok (), (Party.add_alternate_name s t1 nm).2) := by
  set s1 := (Party.add_alternate_name s t1 nm).2 with hs1
  have hrows : party_name_rows s1 ((py_strip nm).toLower) =
      [⟨"party_names", (py_strip nm).toLower, t1⟩] := by
    rw [hs1]
    simp only [Party.add_alternate_name]
    rw [hempty]
    simp only [party_name_rows, List.filter_append]
    have h0 : s.xrefs.filter
        (fun r => r.schema == "party_names" && r.text_value == (py_strip nm).toLower) = [] :=
      hempty
    rw [h0]
    simp
  refine ⟨?_, hrows, ?_, ?_, ?_⟩
  · simp only [Party.add_alternate_name]
    rw [hempty]
  · simp only [Party.add_alternate_name]
    rw [hrows]
    simpa using hne
  · simp only [PartyManager.get_by_name]
    rw [hrows]
  · simp only [Party.add_alternate_name]
    rw [hrows]
    simp

theorem c4_witness :
    (Party.add_alternate_name ⟨[], [], [], [], []⟩ 1 "Liberal").1 = .ok () ∧
    party_name_rows (Party.add_alternate_name ⟨[], [], [], [], []⟩ 1 "Liberal").2
      ((py_strip "Liberal").toLower) = [⟨"party_names", (py_strip "Liberal").toLower, 1⟩] ∧
    Party.add_alternate_name (Party.add_alternate_name ⟨[], [], [], [], []⟩ 1 "Liberal").2
      2 "Liberal" =
      (.error .nameConflict, (Party.add_alternate_name ⟨[], [], [], [], []⟩ 1 "Liberal").2) ∧
    PartyManager.get_by_name (Party.add_alternate_name ⟨[], [], [], [], []⟩ 1 "Liberal").2
      "Liberal" = .ok 1 ∧
    Party.add_alternate_name (Party.add_alternate_name ⟨[], [], [], [], []⟩ 1 "Liberal").2
      1 "Liberal" =
      (.ok (), (Party.add_alternate_name ⟨[], [], [], [], []⟩ 1 "Liberal").2) :=
  c4_insert_conflict_idempotent ⟨[], [], [], [], []⟩ "Liberal" 1 2 (by decide) rfl

/-! ## C6 — ambiguity without context -/

/-- C6: when the normalized name is registered as an alternate name of two
distinct politicians and no session, riding, or party context is supplied,
`get_by_name` fails with `Politician.MultipleObjectsReturned` rather than
returning any candidate. -/
theorem c6_ambiguous_without_context (s : DBState) (nm : String) (r1 r2 : InfoRow)
    (sa st : Bool)
    (h1 : r1 ∈ alt_rows s nm) (h2 : r2 ∈ alt_rows s nm)
    (hne : r1.politician ≠ r2.politician) :
    PoliticianManager.get_by_name s nm none none none none sa st =
      (.error .polMultiple, s) := by
  have hrne : r1 ≠ r2 := fun h => hne (by rw [h])
  have hlen := two_le_length_of_mem_ne h1 h2 hrne
  rcases hq : alt_rows s nm with _ | ⟨a, _ | ⟨b, l⟩⟩
  · rw [hq] at hlen; simp at hlen
  · rw [hq] at hlen; simp at hlen
  · simp only [PoliticianManager.get_by_name]
    rw [hq]
    simp

/-- Two politicians sharing the alternate name `john smith`. -/
def c6_state : DBState :=
  ⟨[⟨1, "John Smith", "Smith"⟩, ⟨2, "John A. Smith", "Smith"⟩],
   [⟨1, "alternate_name", "john smith"⟩, ⟨2, "alternate_name", "john smith"⟩],
   [], [], []⟩

theorem c6_witness :
    PoliticianManager.get_by_name c6_state "John Smith" none none none none true false =
      (.error .polMultiple, c6_state) :=
  c6_ambiguous_without_context c6_state "John Smith"
    ⟨1, "alternate_name", "john smith"⟩ ⟨2, "alternate_name", "john smith"⟩
    true false (by decide) (by decide) (by decide)

/-! ## C7 — Stage-3 family-name matching outcomes -/

/-- One politician whose membership in session `S` is in riding 2 and whose
membership in riding 1 is in session `T`: no single membership row carries
both the supplied session and the supplied riding. -/
def c7_state : DBState :=
  ⟨[⟨1, "John Smith", "Smith"⟩], [], [],
   [⟨1, 2, 1, ["S"]⟩, ⟨1, 1, 1, ["T"]⟩], []⟩

/-- C7 (counterexample): per the claim, zero politicians named Smith have *a*
membership in session `S` and riding 1 (first conjunct), so
`get_by_name("Alpha Smith", session=S, riding=1)` should fail with
`NotFoundError`; the code instead returns politician 1, because the two
chained Django `.filter` calls join the membership table separately and accept
a session match and a riding match from two different membership rows. -/
theorem c7_counterexample :
    (c7_state.members.all (fun m => !(m.sessions.contains "S" && m.riding == 1))) = true ∧
    (PoliticianManager.get_by_name c7_state "Alpha Smith" (some "S") (some 1) none none
      true false).1 = .ok 1 :=
  ⟨rfl, rfl⟩

/-- C7 (amended): in Stage-3 family-name matching (session supplied,
`strictMatch` off, Stage 1 empty), a politician "matches" when it bears the
extracted family name, has some membership in the supplied session, and — when
a riding is supplied — some membership (possibly a different row) in that
riding (`stage3_pols`). If two or more politicians match and a riding was
supplied, the call raises the fatal data-inconsistency error; if two or more
match with no riding supplied, or zero match, it fails with
`Politician.DoesNotExist`. -/
theorem c7_stage3_outcomes (s : DBState) (nm sessId ln : String)
    (rid pa : Option Nat) (sa : Bool)
    (hempty : alt_rows s nm = [])
    (hln : extract_lastname nm = some ln) :
    (2 ≤ (stage3_pols s ln sessId rid).length → rid.isSome = true →
      PoliticianManager.get_by_name s nm (some sessId) rid none pa sa false =
        (.error .dataError, s)) ∧
    (2 ≤ (stage3_pols s ln sessId rid).length → rid = none →
      PoliticianManager.get_by_name s nm (some sessId) rid none pa sa false =
        (.error .polDoesNotExist, s)) ∧
    ((stage3_pols s ln sessId rid).length = 0 →
      PoliticianManager.get_by_name s nm (some sessId) rid none pa sa false =
        (.error .polDoesNotExist, s)) := by
  refine ⟨?_, ?_, ?_⟩
  · intro hlen hside
    rcases hq : stage3_pols s ln sessId rid with _ | ⟨a, _ | ⟨b, l⟩⟩
    · rw [hq] at hlen; simp at hlen
    · rw [hq] at hlen; simp at hlen
    · simp only [PoliticianManager.get_by_name, hempty, PoliticianManager.stage3, hln, hq]
      simp [hside]
  · intro hlen hside
    subst hside
    rcases hq : stage3_pols s ln sessId none with _ | ⟨a, _ | ⟨b, l⟩⟩
    · rw [hq] at hlen; simp at hlen
    · rw [hq] at hlen; simp at hlen
    · simp only [PoliticianManager.get_by_name, hempty, PoliticianManager.stage3, hln, hq]
      simp
  · intro hlen
    rcases hq : stage3_pols s ln sessId rid with _ | ⟨a, t⟩
    · simp only [PoliticianManager.get_by_name, hempty, PoliticianManager.stage3, hln, hq]
    · rw [hq] at hlen; simp at hlen

/-- Two Smiths both elected in session `S`, riding 1. -/
def c7_state2 : DBState :=
  ⟨[⟨1, "Ann Smith", "Smith"⟩, ⟨2, "Bob Smith", "Smith"⟩], [], [],
   [⟨1, 1, 1, ["S"]⟩, ⟨2, 1, 1, ["S"]⟩], []⟩

theorem c7_witness :
    PoliticianManager.get_by_name c7_state2 "X Smith" (some "S") (some 1) none none
      true false = (.error .dataError, c7_state2) ∧
    PoliticianManager.get_by_name c7_state2 "X Smith" (some "S") none none none
      true false = (.error .polDoesNotExist, c7_state2) ∧
    PoliticianManager.get_by_name c7_state2 "X Jones" (some "S") (some 1) none none
      true false = (.error .polDoesNotExist, c7_state2) :=
  ⟨(c7_stage3_outcomes c7_state2 "X Smith" "S" "Smith" (some 1) none true rfl rfl).1
      (by decide) rfl,
   (c7_stage3_outcomes c7_state2 "X Smith" "S" "Smith" none none true rfl rfl).2.1
      (by decide) rfl,
   (c7_stage3_outcomes c7_state2 "X Jones" "S" "Jones" (some 1) none true rfl rfl).2.2
      (by decide)⟩

/-! ## C2 — person-ID persistence is non-overwriting and never rebinds -/

/-- C2: resolution by a person-kind external ID never silently rebinds the ID.
(1) If exactly one info row binds the numeric ID, the fast path returns that
row's politician with the store untouched and no network access; (2) if
several rows bind it, the call fails loudly (`MultipleObjectsReturned`) with
no write; (3) on the slow path (ID bound to nobody), if the resolved
politician already holds a `parl_mp_id` row, persisting the discovered ID with
`overwrite=False` fails loudly with the `ValueError` conflict and writes
nothing (the state stays exactly as resolution left it). -/
theorem c2_person_id_never_rebinds (env : String → HttpResponse) (s : DBState)
    (parlid : Nat) (session riding_name : Option String) :
    (∀ r, PoliticianManager.mp_id_rows s parlid = [r] →
      PoliticianManager.get_by_parl_mp_id env s parlid session riding_name =
        (.ok r.politician, s, [])) ∧
    (∀ r1 r2 l, PoliticianManager.mp_id_rows s parlid = r1 :: r2 :: l →
      PoliticianManager.get_by_parl_mp_id env s parlid session riding_name =
        (.error .infoMultiple, s, [])) ∧
    (∀ pol s2 log row,
      PoliticianManager.mp_id_rows s parlid = [] →
      PoliticianManager.get_pol_from_ourcommons_url env s (pol_person_id_lookup_url parlid)
        session riding_name = (.ok (pol, parlid), s2, log) →
      Politician.infos_for s2 pol "parl_mp_id" = [row] →
      PoliticianManager.get_by_parl_mp_id env s parlid session riding_name =
        (.error .valueError, s2, log)) := by
  refine ⟨?_, ?_, ?_⟩
  · intro r hfast
    simp only [PoliticianManager.get_by_parl_mp_id, hfast]
  · intro r1 r2 l hmulti
    simp only [PoliticianManager.get_by_parl_mp_id, hmulti]
  · intro pol s2 log row hzero hresolve hrow
    simp only [PoliticianManager.get_by_parl_mp_id, hzero, hresolve]
    simp only [ne_eq, not_true_eq_false, if_false, ite_false]
    simp only [Politician.set_info, hrow]
    simp

/-- A store where ID 42 is already bound (uniquely) to politician 7. -/
def c2_fast_state : DBState :=
  ⟨[⟨7, "Jane Smith", "Smith"⟩], [⟨7, "parl_mp_id", "42"⟩], [], [], []⟩

/-- A corrupted store where ID 42 is bound twice. -/
def c2_multi_state : DBState :=
  ⟨[⟨7, "Jane Smith", "Smith"⟩, ⟨8, "Janet Smith", "Smith"⟩],
   [⟨7, "parl_mp_id", "42"⟩, ⟨8, "parl_mp_id", "42"⟩], [], [], []⟩

/-- A store where ID 42 is bound to nobody but the politician the directory
resolves to already holds a different person-ID (77). -/
def c2_slow_state : DBState :=
  ⟨[⟨1, "Jane Smith", "Smith"⟩],
   [⟨1, "alternate_name", "jane smith"⟩, ⟨1, "parl_mp_id", "77"⟩],
   [], [⟨1, 5, 2, ["39-1"]⟩], [⟨5, "avalon"⟩]⟩

/-- A directory: the profile redirect for ID 42 lands on a URL ending in
`(42)`, and the XML detail document names Jane Smith of Avalon. -/
def c2_env : String → HttpResponse := fun u =>
  if u == pol_person_id_lookup_url 42
  then ⟨200, "https://www.ourcommons.ca/Members/en/jane-smith(42)", "", "", ""⟩
  else ⟨200, u, "Jane", "Smith", "Avalon"⟩

set_option maxRecDepth 100000 in
theorem c2_witness :
    PoliticianManager.get_by_parl_mp_id c2_env c2_fast_state 42 none none =
      (.ok 7, c2_fast_state, []) ∧
    PoliticianManager.get_by_parl_mp_id c2_env c2_multi_state 42 none none =
      (.error .infoMultiple, c2_multi_state, []) ∧
    PoliticianManager.get_by_parl_mp_id c2_env c2_slow_state 42 none none =
      (.error .valueError, c2_slow_state,
       [pol_person_id_lookup_url 42, "https://www.ourcommons.ca/Members/en/jane-smith(42)/xml"]) :=
  ⟨(c2_person_id_never_rebinds c2_env c2_fast_state 42 none none).1
      ⟨7, "parl_mp_id", "42"⟩ rfl,
   (c2_person_id_never_rebinds c2_env c2_multi_state 42 none none).2.1
      ⟨7, "parl_mp_id", "42"⟩ ⟨8, "parl_mp_id", "42"⟩ [] rfl,
   (c2_person_id_never_rebinds c2_env c2_slow_state 42 none none).2.2
      1 c2_slow_state
      [pol_person_id_lookup_url 42, "https://www.ourcommons.ca/Members/en/jane-smith(42)/xml"]
      ⟨1, "parl_mp_id", "77"⟩ rfl (by rfl) rfl⟩

/-! ## C5 — context disambiguation precision -/

lemma surviving_members_politician {s : DBState} {pid : Nat} {sess : Option String}
    {rid pa : Option Nat} {m : MemberT} {ms : List MemberT}
    (h : surviving_members s pid sess rid pa = m :: ms) : m.politician = pid := by
  have hm : m ∈ surviving_members s pid sess rid pa := by
    rw [h]; exact List.mem_cons_self m ms
  simp only [surviving_members, List.mem_filter, Bool.and_eq_true, beq_iff_eq] at hm
  exact hm.2.1.1.1

lemma context_scan_picks_unique (s : DBState) (sess : Option String) (rid pa : Option Nat)
    (p1 p2 : Nat) (hp : p1 ≠ p2)
    (halive : surviving_members s p1 sess rid pa ≠ [])
    (hdead : surviving_members s p2 sess rid pa = []) :
    ∀ (l : List InfoRow) (acc : Option Nat),
      (∀ r ∈ l, r.politician = p1 ∨ r.politician = p2) →
      ((acc = none ∧ (l.filter (fun x => x.politician == p1)).length = 1) ∨
       (acc = some p1 ∧ (l.filter (fun x => x.politician == p1)).length = 0)) →
      context_scan s sess rid pa l acc = .ok (some p1) := by
  intro l
  induction l with
  | nil =>
    intro acc _ hacc
    rcases hacc with ⟨_, hlen⟩ | ⟨rfl, _⟩
    · simp at hlen
    · rfl
  | cons r rest ih =>
    intro acc hall hacc
    rcases hall r (List.mem_cons_self r rest) with hr1 | hr2
    · -- this row belongs to p1, whose surviving members are nonempty
      rcases hsm : surviving_members s p1 sess rid pa with _ | ⟨m, ms⟩
      · exact absurd hsm halive
      · have hm : m.politician = p1 := surviving_members_politician hsm
        have hhead : (r.politician == p1) = true := by simp [hr1]
        have hfc : ((r :: rest).filter (fun x => x.politician == p1)).length
            = (rest.filter (fun x => x.politician == p1)).length + 1 := by
          simp [List.filter_cons, hhead]
        rcases hacc with ⟨rfl, hlen⟩ | ⟨rfl, hlen⟩
        · rw [hfc] at hlen
          simp only [context_scan, hr1, hsm]
          rw [hm]
          apply ih (some p1) (fun x hx => hall x (List.mem_cons_of_mem r hx))
          right
          exact ⟨rfl, by omega⟩
        · rw [hfc] at hlen
          exact absurd hlen (Nat.succ_ne_zero _)
    · -- this row belongs to p2, which is dead: skip it
      have hhead : (r.politician == p1) = false := by
        simp only [beq_eq_false_iff_ne, ne_eq, hr2]
        exact fun h => hp h.symm
      have hfc : ((r :: rest).filter (fun x => x.politician == p1))
          = rest.filter (fun x => x.politician == p1) := by
        simp [List.filter_cons, hhead]
      simp only [context_scan, hr2, hdead]
      apply ih acc (fun x hx => hall x (List.mem_cons_of_mem r hx))
      rw [hfc] at hacc
      exact hacc

/-- C5: if two distinct politicians share the normalized alternate name (each
registered once), context is supplied, and exactly one of them has a
membership row surviving every supplied filter, `get_by_name` returns that
politician (and never the other) without modifying the store. -/
theorem c5_disambiguation_precision (s : DBState) (nm : String) (sess : Option String)
    (rid pa : Option Nat) (p1 p2 : Nat) (sa st : Bool)
    (hctx : (sess.isSome || rid.isSome || pa.isSome) = true)
    (hall : ∀ r ∈ alt_rows s nm, r.politician = p1 ∨ r.politician = p2)
    (hone : ((alt_rows s nm).filter (fun x => x.politician == p1)).length = 1)
    (halive : surviving_members s p1 sess rid pa ≠ [])
    (hdead : surviving_members s p2 sess rid pa = []) :
    PoliticianManager.get_by_name s nm sess rid none pa sa st = (.ok p1, s) := by
  have hp : p1 ≠ p2 := by
    intro h
    rw [h] at halive
    exact halive hdead
  have hscan := context_scan_picks_unique s sess rid pa p1 p2 hp halive hdead
    (alt_rows s nm) none hall (Or.inl ⟨rfl, hone⟩)
  rcases hq : alt_rows s nm with _ | ⟨a, t⟩
  · rw [hq] at hone; simp at hone
  · rw [hq] at hscan
    simp only [PoliticianManager.get_by_name, hq, hctx, if_true, hscan]

/-- Two politicians share `john smith`; only politician 1 has a membership in
riding 1 and session `S`; politician 2 sits in riding 2. -/
def c5_state : DBState :=
  ⟨[⟨1, "John Smith", "Smith"⟩, ⟨2, "John Smith", "Smith"⟩],
   [⟨1, "alternate_name", "john smith"⟩, ⟨2, "alternate_name", "john smith"⟩],
   [], [⟨1, 1, 3, ["S"]⟩, ⟨2, 2, 3, ["S"]⟩], []⟩

theorem c5_witness :
    PoliticianManager.get_by_name c5_state "John Smith" (some "S") (some 1) none none
      true false = (.ok 1, c5_state) :=
  c5_disambiguation_precision c5_state "John Smith" (some "S") (some 1) none 1 2
    true false rfl (by decide) (by decide) (by decide) (by decide)

/-! ## C1 — Stage-2 resolution and the alternate-name persistence condition -/

lemma infos_mono_set_info_multivalued (s : DBState) (pid : Nat) (k v : String) {r : InfoRow}
    (h : r ∈ s.infos) : r ∈ (Politician.set_info_multivalued s pid k v).infos := by
  unfold Politician.set_info_multivalued
  split
  · exact h
  · exact List.mem_append_left _ h

lemma infos_mono_add_alternate_name (s : DBState) (pid : Nat) (nm : String) {r : InfoRow}
    (h : r ∈ s.infos) : r ∈ (Politician.add_alternate_name s pid nm).infos := by
  unfold Politician.add_alternate_name
  split
  · exact h
  · exact infos_mono_set_info_multivalued _ _ _ _ h

lemma infos_mono_stage3 (s : DBState) (nm : String) (sess : Option String)
    (rid : Option Nat) (sa st : Bool) {r : InfoRow} (h : r ∈ s.infos) :
    r ∈ (PoliticianManager.stage3 s nm sess rid sa st).2.infos := by
  unfold PoliticianManager.stage3
  repeat' split
  all_goals first
    | exact h
    | exact infos_mono_add_alternate_name _ _ _ h

lemma infos_mono_get_by_name (s : DBState) (nm : String) (sess : Option String)
    (rid el pa : Option Nat) (sa st : Bool) {r : InfoRow} (h : r ∈ s.infos) :
    r ∈ (PoliticianManager.get_by_name s nm sess rid el pa sa st).2.infos := by
  unfold PoliticianManager.get_by_name
  repeat' split
  all_goals first
    | exact h
    | exact infos_mono_stage3 _ _ _ _ _ _ h

/-- C1: whenever `get_by_name` is called with context and `saveAlternate` left
true, and returns a politician `p` that was among the Stage-1 alternate-name
candidates (which is exactly the Stage-2 situation), the normalized query
string is already among `p`'s stored alternate names before the call, and it
is among `p`'s stored alternate names in the resulting store — so the
persist-if-missing obligation holds: its guard ("normalized form not already
stored") can never fire for a Stage-2-selected candidate. -/
theorem c1_stage2_alternate_already_present (s : DBState) (nm : String)
    (sess : Option String) (rid pa : Option Nat) (st : Bool) (p : Nat) (s2 : DBState)
    (_hctx : (sess.isSome || rid.isSome || pa.isSome) = true)
    (hcand : p ∈ (alt_rows s nm).map (fun r => r.politician))
    (hrun : PoliticianManager.get_by_name s nm sess rid none pa true st = (.ok p, s2)) :
    normalizeName nm ∈ Politician.alternate_names s p ∧
    normalizeName nm ∈ Politician.alternate_names s2 p := by
  obtain ⟨r, hrmem, hrp⟩ := List.mem_map.mp hcand
  have hflt := hrmem
  simp only [alt_rows, List.mem_filter, Bool.and_eq_true, beq_iff_eq] at hflt
  obtain ⟨hin, hschema, hval⟩ := hflt
  have hmem1 : normalizeName nm ∈ Politician.alternate_names s p := by
    simp only [Politician.alternate_names, Politician.infos_for, List.mem_map,
      List.mem_filter, Bool.and_eq_true, beq_iff_eq]
    exact ⟨r, ⟨hin, hrp, hschema⟩, hval⟩
  refine ⟨hmem1, ?_⟩
  have hin2 : r ∈ s2.infos := by
    have hmono := infos_mono_get_by_name s nm sess rid none pa true st hin
    rw [hrun] at hmono
    exact hmono
  simp only [Politician.alternate_names, Politician.infos_for, List.mem_map,
    List.mem_filter, Bool.and_eq_true, beq_iff_eq]
  exact ⟨r, ⟨hin2, hrp, hschema⟩, hval⟩

/-- One politician known as `jane smith`, with a membership in riding 5. -/
def c1_state : DBState :=
  ⟨[⟨1, "Jane Smith", "Smith"⟩], [⟨1, "alternate_name", "jane smith"⟩],
   [], [⟨1, 5, 2, ["39-1"]⟩], []⟩

theorem c1_witness :
    normalizeName "Jane Smith" ∈ Politician.alternate_names c1_state 1 ∧
    normalizeName "Jane Smith" ∈ Politician.alternate_names c1_state 1 :=
  c1_stage2_alternate_already_present c1_state "Jane Smith" none (some 5) none false
    1 c1_state rfl (by decide) (by rfl)

/-! ## C9 — every saved politician is findable under its display name -/

/-- The number of stored `alternate_name` rows of one politician holding one
normalized value. -/
def alt_name_count (s : DBState) (pid : Nat) (nn : String) : Nat :=
  (s.infos.filter
    (fun r => r.politician == pid && r.schema == "alternate_name" && r.value == nn)).length

lemma row_of_count_pos {s : DBState} {pid : Nat} {nn : String}
    (h : 0 < alt_name_count s pid nn) :
    (⟨pid, "alternate_name", nn⟩ : InfoRow) ∈ s.infos := by
  simp only [alt_name_count, List.length_pos_iff_exists_mem, List.mem_filter,
    Bool.and_eq_true, beq_iff_eq] at h
  obtain ⟨r, hin, ⟨⟨hp, hs⟩, hv⟩⟩ := h
  have hr : r = ⟨pid, "alternate_name", nn⟩ := by cases r; simp_all
  rwa [hr] at hin

lemma contains_alt_iff (s : DBState) (pid : Nat) (nn : String) :
    ((Politician.alternate_names s pid).contains nn = true) ↔
      0 < alt_name_count s pid nn := by
  simp only [Politician.alternate_names, Politician.infos_for, alt_name_count,
    List.contains_iff_exists_mem_beq, List.length_pos_iff_exists_mem, List.mem_map,
    List.mem_filter, Bool.and_eq_true, beq_iff_eq]
  constructor
  · rintro ⟨v, ⟨r, ⟨hin, hp, hs⟩, hv⟩, hbeq⟩
    exact ⟨r, hin, ⟨⟨hp, hs⟩, hv.trans hbeq.symm⟩⟩
  · rintro ⟨r, hin, ⟨⟨hp, hs⟩, hv⟩⟩
    exact ⟨r.value, ⟨r, ⟨hin, hp, hs⟩, rfl⟩, hv.symm⟩

lemma any_alt_iff (s : DBState) (pid : Nat) (nn : String) :
    (s.infos.any
      (fun r => r.politician == pid && r.schema == "alternate_name" && r.value == nn)) = true
      ↔ 0 < alt_name_count s pid nn := by
  simp only [List.any_eq_true, alt_name_count, List.length_pos_iff_exists_mem,
    List.mem_filter]

lemma add_alt_infos_eq (t : DBState) (pid : Nat) (nm : String) :
    (Politician.add_alternate_name t pid nm).infos =
      (if (Politician.alternate_names t pid).contains (normalizeName nm)
       then t.infos
       else t.infos ++ [⟨pid, "alternate_name", normalizeName nm⟩]) := by
  unfold Politician.add_alternate_name Politician.set_info_multivalued
  by_cases hc : (Politician.alternate_names t pid).contains (normalizeName nm) = true
  · rw [if_pos hc, if_pos hc]
  · rw [if_neg hc, if_neg hc]
    have hzero : alt_name_count t pid (normalizeName nm) = 0 := by
      by_contra hne
      exact hc ((contains_alt_iff t pid (normalizeName nm)).mpr (by omega))
    have hany : (t.infos.any (fun r =>
        r.politician == pid && r.schema == "alternate_name"
          && r.value == normalizeName nm)) = false := by
      cases hA : t.infos.any (fun r =>
          r.politician == pid && r.schema == "alternate_name"
            && r.value == normalizeName nm)
      · rfl
      · have := (any_alt_iff t pid (normalizeName nm)).mp hA
        omega
    rw [if_neg (by simp [hany])]

lemma alternate_names_eq_of_infos (t u : DBState) (h : t.infos = u.infos) (pid : Nat) :
    Politician.alternate_names t pid = Politician.alternate_names u pid := by
  simp [Politician.alternate_names, Politician.infos_for, h]

lemma mem_alternate_names_of_row {u : DBState} {row : InfoRow} {pid : Nat}
    (h : row ∈ u.infos) (hpid : row.politician = pid)
    (hs : row.schema = "alternate_name") :
    row.value ∈ Politician.alternate_names u pid := by
  simp only [Politician.alternate_names, Politician.infos_for, List.mem_map,
    List.mem_filter, Bool.and_eq_true, beq_iff_eq]
  exact ⟨row, ⟨h, hpid, hs⟩, rfl⟩

lemma mem_filter_by_name_of_row {u : DBState} {row : InfoRow} {nm : String}
    (h : row ∈ u.infos) (hs : row.schema = "alternate_name")
    (hv : row.value = normalizeName nm) :
    row.politician ∈ PoliticianManager.filter_by_name u nm := by
  simp only [PoliticianManager.filter_by_name, alt_rows, List.mem_map, List.mem_filter,
    Bool.and_eq_true, beq_iff_eq]
  exact ⟨row, ⟨h, hs, hv⟩, rfl⟩

lemma c9_aux (s t : DBState) (p : PoliticianT) (h : t.infos = s.infos) :
    normalizeName p.name ∈
      Politician.alternate_names (Politician.add_alternate_name t p.id p.name) p.id ∧
    p.id ∈ PoliticianManager.filter_by_name
      (Politician.add_alternate_name t p.id p.name) p.name ∧
    alt_name_count (Politician.add_alternate_name t p.id p.name) p.id
        (normalizeName p.name) =
      (if alt_name_count s p.id (normalizeName p.name) = 0 then 1
       else alt_name_count s p.id (normalizeName p.name)) := by
  have hrow := add_alt_infos_eq t p.id p.name
  rw [alternate_names_eq_of_infos t s h p.id, h] at hrow
  by_cases hc : (Politician.alternate_names s p.id).contains (normalizeName p.name) = true
  · rw [if_pos hc] at hrow
    have hpos := (contains_alt_iff s p.id (normalizeName p.name)).mp hc
    have hmem : (⟨p.id, "alternate_name", normalizeName p.name⟩ : InfoRow) ∈
        (Politician.add_alternate_name t p.id p.name).infos := by
      rw [hrow]
      exact row_of_count_pos hpos
    refine ⟨mem_alternate_names_of_row hmem rfl rfl,
            mem_filter_by_name_of_row hmem rfl rfl, ?_⟩
    rw [if_neg (by omega)]
    simp only [alt_name_count, hrow]
  · rw [if_neg hc] at hrow
    have hzero : alt_name_count s p.id (normalizeName p.name) = 0 := by
      by_contra hne
      exact hc ((contains_alt_iff s p.id (normalizeName p.name)).mpr (by omega))
    have hmem : (⟨p.id, "alternate_name", normalizeName p.name⟩ : InfoRow) ∈
        (Politician.add_alternate_name t p.id p.name).infos := by
      rw [hrow]
      exact List.mem_append_right _ (by simp)
    refine ⟨mem_alternate_names_of_row hmem rfl rfl,
            mem_filter_by_name_of_row hmem rfl rfl, ?_⟩
    rw [if_pos hzero]
    simp only [alt_name_count, hrow, List.filter_append, List.length_append]
    have h0 : (s.infos.filter (fun r => r.politician == p.id
        && r.schema == "alternate_name" && r.value == normalizeName p.name)).length = 0 :=
      hzero
    rw [h0]
    simp

/-- C9: after `Politician.save`, the politician's normalized display name is
among its stored alternate names, the politician is returned by
`filter_by_name` under its exact display name, and no duplicate row is
created: the number of rows holding that normalized value becomes one if it
was zero and is otherwise unchanged. -/
theorem c9_save_alternate_invariant (s : DBState) (p : PoliticianT) :
    normalizeName p.name ∈ Politician.alternate_names (Politician.save s p) p.id ∧
    p.id ∈ PoliticianManager.filter_by_name (Politician.save s p) p.name ∧
    alt_name_count (Politician.save s p) p.id (normalizeName p.name) =
      (if alt_name_count s p.id (normalizeName p.name) = 0 then 1
       else alt_name_count s p.id (normalizeName p.name)) := by
  unfold Politician.save
  apply c9_aux
  split <;> rfl
